import Mathlib

/-!
Shallow embedding of the dependency-contribution logic of the yarn-cnb
repository (vendored module `github.com/cloudfoundry/npm-cnb/modules`,
file `modules.go`), together with theorems checking the natural-language
specification against it.

Machine integers are modelled as `Nat` with explicit reduction modulo
`2 ^ 32` where the Go code works on `uint32` (the SHA-256 digest), and
byte strings as `List Nat` of values below 256.
-/

namespace YarnCNB

/-! ### Hex encoding

`strconv.FormatInt(i, 16)` and `encoding/hex.EncodeToString` both emit
lowercase hexadecimal digits.  `hexDigitChar` is the digit-to-character
map, `toHexDigits` the base-16 digit expansion (most significant first)
as produced by `strconv.FormatInt` for a non-negative argument. -/

def hexDigitChar (d : Nat) : Char :=
  if d < 10 then Char.ofNat (48 + d) else Char.ofNat (87 + d)

def toHexDigitsAux : Nat → Nat → List Nat
  | 0, n => [n % 16]
  | fuel + 1, n => if n < 16 then [n] else toHexDigitsAux fuel (n / 16) ++ [n % 16]

def toHexDigits (n : Nat) : List Nat := toHexDigitsAux n n

/-- Go `strconv.FormatInt(n, 16)` for a non-negative `int64` value `n`
(`time.Now().UnixNano()` is non-negative for every instant after the
Unix epoch). -/
def formatNatHex (n : Nat) : String :=
  String.mk ((toHexDigits n).map hexDigitChar)

def ofHexDigits (ds : List Nat) : Nat :=
  ds.foldl (fun a d => 16 * a + d) 0

lemma ofHexDigits_append_single (ds : List Nat) (d : Nat) :
    ofHexDigits (ds ++ [d]) = 16 * ofHexDigits ds + d := by
  simp [ofHexDigits, List.foldl_append]

lemma ofHexDigits_toHexDigitsAux :
    ∀ fuel n, n ≤ fuel → ofHexDigits (toHexDigitsAux fuel n) = n := by
  intro fuel
  induction fuel with
  | zero =>
    intro n hn
    interval_cases n
    simp [toHexDigitsAux, ofHexDigits]
  | succ fuel ih =>
    intro n hn
    rw [toHexDigitsAux]
    split
    · simp [ofHexDigits]
    · rw [ofHexDigits_append_single,
        ih (n / 16) (by omega)]
      omega

lemma ofHexDigits_toHexDigits (n : Nat) :
    ofHexDigits (toHexDigits n) = n :=
  ofHexDigits_toHexDigitsAux n n le_rfl

lemma toHexDigits_injective : Function.Injective toHexDigits := by
  intro a b h
  have := congrArg ofHexDigits h
  rwa [ofHexDigits_toHexDigits, ofHexDigits_toHexDigits] at this

lemma toHexDigitsAux_lt :
    ∀ fuel n, ∀ d ∈ toHexDigitsAux fuel n, d < 16 := by
  intro fuel
  induction fuel with
  | zero =>
    intro n d hd
    simp only [toHexDigitsAux, List.mem_singleton] at hd
    subst hd
    exact Nat.mod_lt _ (by omega)
  | succ fuel ih =>
    intro n d hd
    rw [toHexDigitsAux] at hd
    split at hd
    · simp only [List.mem_singleton] at hd
      omega
    · rcases List.mem_append.mp hd with h1 | h2
      · exact ih (n / 16) d h1
      · simp only [List.mem_singleton] at h2
        subst h2
        exact Nat.mod_lt _ (by omega)

lemma toHexDigits_lt (n : Nat) : ∀ d ∈ toHexDigits n, d < 16 :=
  toHexDigitsAux_lt n n

lemma hexDigitChar_inj_lt :
    ∀ d1 < 16, ∀ d2 < 16, hexDigitChar d1 = hexDigitChar d2 → d1 = d2 := by
  decide

lemma map_hexDigitChar_inj :
    ∀ l1 l2 : List Nat, (∀ d ∈ l1, d < 16) → (∀ d ∈ l2, d < 16) →
      l1.map hexDigitChar = l2.map hexDigitChar → l1 = l2 := by
  intro l1
  induction l1 with
  | nil =>
    intro l2 _ _ h
    cases l2 with
    | nil => rfl
    | cons b bs => simp at h
  | cons a as ih =>
    intro l2 h1 h2 h
    cases l2 with
    | nil => simp at h
    | cons b bs =>
      simp only [List.map_cons, List.cons.injEq] at h
      have ha : a = b :=
        hexDigitChar_inj_lt a (h1 a (by simp)) b (h2 b (by simp)) h.1
      have hs : as = bs :=
        ih bs (fun d hd => h1 d (by simp [hd])) (fun d hd => h2 d (by simp [hd])) h.2
      rw [ha, hs]

lemma formatNatHex_injective : Function.Injective formatNatHex := by
  intro a b h
  have hdata : (toHexDigits a).map hexDigitChar = (toHexDigits b).map hexDigitChar := by
    have := congrArg String.data h
    simpa [formatNatHex] using this
  exact toHexDigits_injective
    (map_hexDigitChar_inj _ _ (toHexDigits_lt a) (toHexDigits_lt b) hdata)

/-! ### SHA-256 (`crypto/sha256`)

Standard SHA-256 over a byte list, words as `Nat` reduced mod `2 ^ 32`. -/

def w32 (n : Nat) : Nat := n % 4294967296

def rotr (k w : Nat) : Nat := w32 ((w >>> k) ||| (w <<< (32 - k)))

def shaK : List Nat :=
  [1116352408, 1899447441, 3049323471, 3921009573, 961987163,
   1508970993, 2453635748, 2870763221, 3624381080, 310598401,
   607225278, 1426881987, 1925078388, 2162078206, 2614888103,
   3248222580, 3835390401, 4022224774, 264347078, 604807628,
   770255983, 1249150122, 1555081692, 1996064986, 2554220882,
   2821834349, 2952996808, 3210313671, 3336571891, 3584528711,
   113926993, 338241895, 666307205, 773529912, 1294757372,
   1396182291, 1695183700, 1986661051, 2177026350, 2456956037,
   2730485921, 2820302411, 3259730800, 3345764771, 3516065817,
   3600352804, 4094571909, 275423344, 430227734, 506948616,
   659060556, 883997877, 958139571, 1322822218, 1537002063,
   1747873779, 1955562222, 2024104815, 2227730452, 2361852424,
   2428436474, 2756734187, 3204031479, 3329325298]

def shaH0 : List Nat :=
  [1779033703, 3144134277, 1013904242, 2773480762,
   1359893119, 2600822924, 528734635, 1541459225]

def lengthBytes (bitLen : Nat) : List Nat :=
  (List.range 8).map (fun i => (bitLen >>> (56 - 8 * i)) % 256)

def padMessage (msg : List Nat) : List Nat :=
  let z := (119 - msg.length % 64) % 64
  msg ++ [128] ++ List.replicate z 0 ++ lengthBytes (8 * msg.length)

def bytesToWords : List Nat → List Nat
  | a :: b :: c :: d :: rest =>
      ((a <<< 24) ||| (b <<< 16) ||| (c <<< 8) ||| d) :: bytesToWords rest
  | _ => []

def smallSigma0 (x : Nat) : Nat := (rotr 7 x) ^^^ (rotr 18 x) ^^^ (x >>> 3)

def smallSigma1 (x : Nat) : Nat := (rotr 17 x) ^^^ (rotr 19 x) ^^^ (x >>> 10)

/-- One extension step of the message schedule; the list holds the
schedule so far, newest word first. -/
def scheduleStep (l : List Nat) : List Nat :=
  w32 (smallSigma1 (l.getD 1 0) + l.getD 6 0 + smallSigma0 (l.getD 14 0) + l.getD 15 0) :: l

def fullSchedule (ws : List Nat) : List Nat :=
  (scheduleStep^[48] ws.reverse).reverse

def compressStep (st : List Nat) (kw : Nat × Nat) : List Nat :=
  match st with
  | [a, b, c, d, e, f, g, h] =>
      let s1 := (rotr 6 e) ^^^ (rotr 11 e) ^^^ (rotr 25 e)
      let ch := (e &&& f) ^^^ ((e ^^^ 4294967295) &&& g)
      let t1 := w32 (h + s1 + ch + kw.1 + kw.2)
      let s0 := (rotr 2 a) ^^^ (rotr 13 a) ^^^ (rotr 22 a)
      let maj := (a &&& b) ^^^ (a &&& c) ^^^ (b &&& c)
      let t2 := w32 (s0 + maj)
      [w32 (t1 + t2), a, b, c, w32 (d + t1), e, f, g]
  | other => other

def processBlock (hs : List Nat) (block : List Nat) : List Nat :=
  let ws := fullSchedule (bytesToWords block)
  let st := (shaK.zip ws).foldl compressStep hs
  (hs.zip st).map (fun p => w32 (p.1 + p.2))

def chunks64Aux : Nat → List Nat → List (List Nat)
  | 0, _ => []
  | _, [] => []
  | fuel + 1, l => l.take 64 :: chunks64Aux fuel (l.drop 64)

def chunks64 (l : List Nat) : List (List Nat) := chunks64Aux l.length l

def sha256 (msg : List Nat) : List Nat :=
  (chunks64 (padMessage msg)).foldl processBlock shaH0

def wordToHex (w : Nat) : List Char :=
  (List.range 8).map (fun i => hexDigitChar ((w >>> (28 - 4 * i)) % 16))

/-- Go `hex.EncodeToString(sha256.Sum256(msg))`. -/
def sha256hex (msg : List Nat) : String :=
  String.mk (((sha256 msg).map wordToHex).flatten)

def strBytes (s : String) : List Nat := s.data.map Char.toNat

/-! ### Data model

`modules.go` works on the application root, the `node_modules` layer and
the `npm-cache` layer.  The filesystem state relevant to the module is
captured explicitly; directory contents are lists of entries (name plus
`IsDir` bit, matching what `ioutil.ReadDir` exposes to `hasSubdirs` and
what `helper.CopyDirectory` moves wholesale). -/

structure DirEntry where
  name : String
  isDir : Bool
deriving DecidableEq, Repr

structure FS where
  /-- contents of `app.Root/node_modules`, `none` when absent -/
  appNodeModules : Option (List DirEntry)
  /-- contents of `app.Root/npm-cache`, `none` when absent -/
  appNpmCache : Option (List DirEntry)
  /-- bytes of `app.Root/package-lock.json`, `none` when absent -/
  lockFile : Option (List Nat)
  /-- contents of `nodeModulesLayer.Root/node_modules` -/
  layerNodeModules : Option (List DirEntry)
  /-- contents of `npmCacheLayer.Root/npm-cache` -/
  layerNpmCache : Option (List DirEntry)
  /-- whether `npmCacheLayer.Root` itself exists (`os.MkdirAll` target) -/
  npmCacheLayerDirExists : Bool
deriving DecidableEq, Repr

def ModulesMetaName : String := "Node Modules"

def CacheMetaName : String := "NPM Cache"

/-- Go `modules.Metadata`: the fingerprint persisted per layer. -/
structure Metadata where
  Name : String
  Hash : String
deriving DecidableEq, Repr

/-- Go `layers.Flag` values passed to `Layer.Contribute`. -/
inductive Flag
  | build
  | launch
  | cache
deriving DecidableEq, Repr

/-- Go `layers.Process` (type, command, direct). -/
structure Process where
  procType : String
  command : String
  direct : Bool
deriving DecidableEq, Repr

/-- The `modules.PackageManager` interface.  Each operation may mutate
the filesystem and may fail; `Install(layerRoot, cacheRoot, appRoot)`
and `Rebuild(cacheRoot, appRoot)` receive the whole state, the
diagnostic check mutates nothing. -/
structure PackageManager where
  install : FS → Except String FS
  rebuild : FS → Except String FS
  warnUnmetDependencies : FS → Except String Unit

/-- Observable events of one build, in execution order. -/
inductive Event
  /-- Go `pkgManager.Install` invoked -/
  | install
  /-- Go `pkgManager.Rebuild` invoked -/
  | rebuild
  /-- advisory log from `tipVendorDependencies` -/
  | tipVendor
  /-- Go `helper.CopyDirectory(node_modules, layer)` + `os.RemoveAll` -/
  | relocate
  /-- Go `os.Setenv("NODE_VERBOSE", "true")` -/
  | setVerbose
  /-- Go `pkgManager.WarnUnmetDependencies` invoked -/
  | warn
  /-- Go `layer.OverrideSharedEnv("NODE_PATH", ...)` -/
  | overrideNodePath
  /-- Go `layer.AppendPathSharedEnv("PATH", ...)` -/
  | appendPath
  /-- Go `os.MkdirAll(npmCacheLayer.Root)` -/
  | mkdirCacheLayer
  /-- npm cache copied into its layer and removed from the app -/
  | relocateCache
  /-- Go `nodeModulesLayer.Contribute` invoked with these flags -/
  | nodeLayer (fl : List Flag)
  /-- Go `npmCacheLayer.Contribute` invoked with these flags -/
  | cacheLayer (fl : List Flag)
  /-- Go `launch.WriteApplicationMetadata` with these processes -/
  | writeProcesses (ps : List Process)
deriving DecidableEq, Repr

/-- Go `modules.Contributor` (the fields the decision logic reads; the
application, layers and package manager are passed explicitly). -/
structure Contributor where
  NodeModulesMetadata : Metadata
  NPMCacheMetadata : Metadata
  buildContribution : Bool
  launchContribution : Bool
deriving DecidableEq, Repr

/-! ### Operations, translated from `modules.go` -/

/-- Go `hasSubdirs`: `ioutil.ReadDir` on a missing directory returns
not-exist, mapped to `false`; otherwise `true` iff some entry is a
directory. -/
def hasSubdirs (dir : Option (List DirEntry)) : Bool :=
  match dir with
  | none => false
  | some files => files.any (fun f => f.isDir)

/-- Go `setLayersMetadata`: time-based default, overwritten by the
SHA-256 of `package-lock.json` when that file exists.  The two
`time.Now().UnixNano()` readings are passed explicitly (`now1`,
`now2`, as `Nat`: `UnixNano` is non-negative after the epoch); the
only Go error paths are I/O faults stat-ing or reading an existing
lock file, which the embedding models as total reads. -/
def setLayersMetadata (fs : FS) (now1 now2 : Nat) :
    Except String (Metadata × Metadata) :=
  let nodeMeta : Metadata := ⟨ModulesMetaName, formatNatHex now1⟩
  let cacheMeta : Metadata := ⟨CacheMetaName, formatNatHex now2⟩
  match fs.lockFile with
  | none => .ok (nodeMeta, cacheMeta)
  | some out => .ok (⟨ModulesMetaName, sha256hex out⟩, ⟨CacheMetaName, sha256hex out⟩)

/-- Go `tipVendorDependencies`: pure logging; emits the advisory exactly
when `node_modules` has no subdirectory. -/
def tipVendorTrace (fs : FS) : List Event :=
  if hasSubdirs fs.appNodeModules then [] else [Event.tipVendor]

/-- The vendored/fresh branch of `contributeNodeModules`:
`vendored := helper.FileExists(nodeModules)`, then `Rebuild` when
vendored and `Install` otherwise, wrapping adapter errors. -/
def pmStage (pm : PackageManager) (fs : FS) :
    Except String FS × List Event :=
  match fs.appNodeModules with
  | some _ =>
      match pm.rebuild fs with
      | .ok fs2 => (.ok fs2, [Event.rebuild])
      | .error e => (.error ("unable to rebuild node_modules: " ++ e), [Event.rebuild])
  | none =>
      match pm.install fs with
      | .ok fs2 => (.ok fs2, [Event.install])
      | .error e => (.error ("unable to install node_modules: " ++ e), [Event.install])

/-- The relocation step of `contributeNodeModules`: if `node_modules`
exists after the package-manager step, copy it under the layer root and
remove it from the application tree; otherwise do nothing. -/
def relocStage (fs : FS) : FS × List Event :=
  match fs.appNodeModules with
  | some d =>
      ({ fs with appNodeModules := none, layerNodeModules := some d }, [Event.relocate])
  | none => (fs, [])

/-- Go `contributeNodeModules`: tip, vendored branch, relocation,
`NODE_VERBOSE`, unmet-dependency check, environment exports.  Returns
the outcome together with the trace of events that occurred. -/
def contributeNodeModules (pm : PackageManager) (fs : FS) :
    Except String FS × List Event :=
  let tip := tipVendorTrace fs
  match pmStage pm fs with
  | (.error e, tr) => (.error e, tip ++ tr)
  | (.ok fs1, tr) =>
      let (fs2, tr2) := relocStage fs1
      match pm.warnUnmetDependencies fs2 with
      | .error e =>
          (.error ("failed to check unmet dependencies: " ++ e),
            tip ++ tr ++ tr2 ++ [Event.setVerbose, Event.warn])
      | .ok _ =>
          (.ok fs2,
            tip ++ tr ++ tr2 ++
              [Event.setVerbose, Event.warn, Event.overrideNodePath, Event.appendPath])

/-- Go `contributeNPMCache`: ensure the cache layer root exists; when the
app carries an `npm-cache` directory, copy it into the layer and remove
it from the app. -/
def contributeNPMCache (fs : FS) : Except String FS × List Event :=
  let fs1 := { fs with npmCacheLayerDirExists := true }
  match fs1.appNpmCache with
  | some d =>
      (.ok { fs1 with appNpmCache := none, layerNpmCache := some d },
        [Event.mkdirCacheLayer, Event.relocateCache])
  | none => (.ok fs1, [Event.mkdirCacheLayer])

/-- Go `Contributor.flags`: `Cache` always, then `Build` and `Launch`
appended according to the contribution booleans. -/
def Contributor.flags (c : Contributor) : List Flag :=
  [Flag.cache]
    ++ (if c.buildContribution then [Flag.build] else [])
    ++ (if c.launchContribution then [Flag.launch] else [])

/-- Persisted per-build state: the filesystem plus the metadata records
the Layer Store keeps for the two layers. -/
structure BuildState where
  fs : FS
  nodeModulesLayerMeta : Option Metadata
  npmCacheLayerMeta : Option Metadata
deriving DecidableEq, Repr

/-- Go `layers.Layer.Contribute`: invoke the contribution function only
when the persisted metadata differs from the supplied one; persist the
supplied metadata on success. -/
def layerContribute (persisted : Option Metadata) (meta : Metadata)
    (fn : FS → Except String FS × List Event) (fs : FS) :
    Except String (FS × Option Metadata) × List Event :=
  if persisted = some meta then (.ok (fs, persisted), [])
  else
    match fn fs with
    | (.ok fs2, tr) => (.ok (fs2, some meta), tr)
    | (.error e, tr) => (.error e, tr)

/-- Go `Contributor.Contribute`: contribute the `node_modules` layer with
`c.flags()`, then the cache layer with `layers.Cache` only, then write
the application metadata with the single `web` process. -/
def Contributor.Contribute (c : Contributor) (pm : PackageManager) (s : BuildState) :
    Except String BuildState × List Event :=
  match layerContribute s.nodeModulesLayerMeta c.NodeModulesMetadata
      (contributeNodeModules pm) s.fs with
  | (.error e, tr) => (.error e, Event.nodeLayer c.flags :: tr)
  | (.ok (fs1, m1), tr) =>
      match layerContribute s.npmCacheLayerMeta c.NPMCacheMetadata contributeNPMCache fs1 with
      | (.error e, tr2) =>
          (.error e,
            Event.nodeLayer c.flags :: tr ++ Event.cacheLayer [Flag.cache] :: tr2)
      | (.ok (fs2, m2), tr2) =>
          (.ok ⟨fs2, m1, m2⟩,
            Event.nodeLayer c.flags :: tr ++ Event.cacheLayer [Flag.cache] :: tr2 ++
              [Event.writeProcesses [⟨"web", "npm start", false⟩]])

/-- A value of the build plan metadata map (`plan.Metadata` has type
`map[string]interface`). -/
inductive PlanVal
  | bool (b : Bool)
  | str (s : String)
  | num (n : Int)
deriving DecidableEq, Repr

structure Plan where
  Metadata : List (String × PlanVal)
deriving DecidableEq, Repr

/-- The two-value Go type assertion `plan.Metadata[key].(bool)`:
`false` when the key is absent or its value is not a boolean. -/
def planBool (m : List (String × PlanVal)) (key : String) : Bool :=
  match m.lookup key with
  | some (PlanVal.bool b) => b
  | _ => false

/-- Go `NewContributor`: inert when the shallow-merged plan carries no
requirement for the dependency key; otherwise compute the layers
metadata and read the `build` / `launch` intents. -/
def NewContributor (plan : Option Plan) (fs : FS) (now1 now2 : Nat) :
    Except String (Option Contributor) :=
  match plan with
  | none => .ok none
  | some p =>
      match setLayersMetadata fs now1 now2 with
      | .error e => .error e
      | .ok (nm, cm) =>
          .ok (some ⟨nm, cm, planBool p.Metadata "build", planBool p.Metadata "launch"⟩)

/-- One full build: construct the contributor and, when it participates,
run `Contribute`. -/
def runBuild (pm : PackageManager) (plan : Option Plan) (now1 now2 : Nat)
    (s : BuildState) : Except String BuildState × List Event :=
  match NewContributor plan s.fs now1 now2 with
  | .error e => (.error e, [])
  | .ok none => (.ok s, [])
  | .ok (some c) => c.Contribute pm s

/-! ### Trace predicates -/

def isWriteProcs : Event → Bool
  | Event.writeProcesses _ => true
  | _ => false

def isCacheLayerEv : Event → Bool
  | Event.cacheLayer _ => true
  | _ => false

/-! ### Concrete inputs used by witnesses and counterexamples -/

/-- The bytes of the lock file content from the spec's concrete
scenario (the JSON object mapping "name" to "x"). -/
def jsonLockBytes : List Nat := strBytes "\x7b\"name\":\"x\"\x7d"

def fsLockEx : FS := ⟨none, none, some jsonLockBytes, none, none, false⟩

def fsLockEx2 : FS :=
  ⟨some [⟨"leftpad", true⟩], some [⟨"tgz", false⟩], some jsonLockBytes,
    none, none, true⟩

def fsNoLockEx : FS := ⟨none, none, none, none, none, false⟩

/-- A package manager whose operations succeed without touching the
filesystem. -/
def idPM : PackageManager :=
  ⟨fun fs => .ok fs, fun fs => .ok fs, fun _ => .ok ()⟩

/-- A package manager whose install materialises one module directory
in the application tree. -/
def pmVend : PackageManager :=
  ⟨fun fs => .ok { fs with appNodeModules := some [⟨"leftpad", true⟩] },
   fun fs => .ok fs, fun _ => .ok ()⟩

/-- A package manager whose diagnostic check itself fails to run. -/
def pmWarnFail : PackageManager :=
  ⟨fun fs => .ok fs, fun fs => .ok fs, fun _ => .error "spawn failed"⟩

/-- An application whose `node_modules` directory exists but contains
no nested directory (a single plain file). -/
def fsFlatModules : FS :=
  ⟨some [⟨"package.json", false⟩], none, none, none, none, false⟩

/-- The filesystem produced by a successful fresh install of `pmVend`
starting from `fsNoLockEx`. -/
def fsVendedOut : FS := ⟨none, none, none, some [⟨"leftpad", true⟩], none, false⟩

/-- Initial build state for the two-build reuse scenario: lock file
present, nothing persisted yet. -/
def s6Start : BuildState := ⟨fsLockEx, none, none⟩

/-- The state after the first build of the reuse scenario. -/
def s6After : BuildState :=
  ⟨⟨none, none, some jsonLockBytes, some [⟨"leftpad", true⟩], none, true⟩,
    some ⟨ModulesMetaName, sha256hex jsonLockBytes⟩,
    some ⟨CacheMetaName, sha256hex jsonLockBytes⟩⟩

/-- The trace of the first build of the reuse scenario. -/
def tr6 : List Event :=
  [Event.nodeLayer [Flag.cache, Flag.build, Flag.launch], Event.tipVendor, Event.install,
    Event.relocate, Event.setVerbose, Event.warn, Event.overrideNodePath, Event.appendPath,
    Event.cacheLayer [Flag.cache], Event.mkdirCacheLayer,
    Event.writeProcesses [⟨"web", "npm start", false⟩]]

/-- A build plan requiring the dependency with no usable booleans:
`build` carries a string, `launch` is absent. -/
def planNoBools : Plan := ⟨[("build", PlanVal.str "yes")]⟩

/-- A build plan requiring the dependency with both intents set. -/
def planBoth : Plan := ⟨[("build", PlanVal.bool true), ("launch", PlanVal.bool true)]⟩

/-- A contributor with fixed metadata, no build or launch intent. -/
def c7W : Contributor := ⟨⟨ModulesMetaName, "h"⟩, ⟨CacheMetaName, "h"⟩, false, false⟩

def s7Start : BuildState := ⟨fsNoLockEx, none, none⟩

def s7After : BuildState :=
  ⟨⟨none, none, none, none, none, true⟩,
    some ⟨ModulesMetaName, "h"⟩, some ⟨CacheMetaName, "h"⟩⟩

/-- The trace of `Contribute c7W idPM s7Start`. -/
def tr7 : List Event :=
  [Event.nodeLayer [Flag.cache], Event.tipVendor, Event.install,
    Event.setVerbose, Event.warn, Event.overrideNodePath, Event.appendPath,
    Event.cacheLayer [Flag.cache], Event.mkdirCacheLayer,
    Event.writeProcesses [⟨"web", "npm start", false⟩]]

example :
    sha256hex (strBytes "") =
      "e3b0c44298fc1c149afbf4c8996fb92427ae41e4649b934ca495991b7852b855" := by
  rfl

/-! ### Claim C2 -/

/-- C2: with a lock file present, the computed fingerprint pair is
(`"Node Modules"`, hex of the SHA-256 of the lock file bytes) (and the
cache layer analogue), and on the concrete bytes of the JSON object
mapping "name" to "x" the hash component is exactly the SHA-256 hex
digest of those bytes. -/
theorem C2_lockfile_fingerprint (fs : FS) (L : List Nat) (now1 now2 : Nat)
    (h : fs.lockFile = some L) :
    setLayersMetadata fs now1 now2
        = .ok (⟨ModulesMetaName, sha256hex L⟩, ⟨CacheMetaName, sha256hex L⟩)
      ∧ ModulesMetaName = "Node Modules"
      ∧ sha256hex jsonLockBytes
        = "0229d37e33daae149bf40543a5ce1db4459d10f830d5139279aa2bfd5f6485a1" := by
  refine ⟨?_, rfl, by rfl⟩
  simp [setLayersMetadata, h]

theorem C2_lockfile_fingerprint_witness :
    fsLockEx.lockFile = some jsonLockBytes
      ∧ (setLayersMetadata fsLockEx 0 1
          = .ok (⟨ModulesMetaName, sha256hex jsonLockBytes⟩,
                 ⟨CacheMetaName, sha256hex jsonLockBytes⟩)
        ∧ ModulesMetaName = "Node Modules"
        ∧ sha256hex jsonLockBytes
          = "0229d37e33daae149bf40543a5ce1db4459d10f830d5139279aa2bfd5f6485a1") :=
  ⟨rfl, C2_lockfile_fingerprint fsLockEx jsonLockBytes 0 1 rfl⟩

/-! ### Claim C3 -/

/-- C3: the fingerprint computed with a lock file present is a
deterministic function of the lock file bytes alone: any two
computations over byte-identical lock content, at any clock readings
and over any other ambient filesystem state, agree. -/
theorem C3_fingerprint_deterministic (fs fs2 : FS) (L : List Nat)
    (t1 t2 t3 t4 : Nat) (h : fs.lockFile = some L) (h2 : fs2.lockFile = some L) :
    setLayersMetadata fs t1 t2 = setLayersMetadata fs2 t3 t4 := by
  simp [setLayersMetadata, h, h2]

theorem C3_fingerprint_deterministic_witness :
    fsLockEx.lockFile = some jsonLockBytes
      ∧ fsLockEx2.lockFile = some jsonLockBytes
      ∧ setLayersMetadata fsLockEx 1 2 = setLayersMetadata fsLockEx2 3 4 :=
  ⟨rfl, rfl, C3_fingerprint_deterministic fsLockEx fsLockEx2 jsonLockBytes 1 2 3 4 rfl rfl⟩

/-! ### Claim C4 -/

/-- C4: with no lock file, the computation succeeds (absence is not an
error) and the hash component is the hex encoding of the wall-clock
reading, so two computations at distinct clock readings yield unequal
node-modules fingerprints. -/
theorem C4_time_fallback (fs fs2 : FS) (t1 t2 t3 t4 : Nat)
    (h : fs.lockFile = none) (h2 : fs2.lockFile = none) (hne : t1 ≠ t3) :
    setLayersMetadata fs t1 t2
        = .ok (⟨ModulesMetaName, formatNatHex t1⟩, ⟨CacheMetaName, formatNatHex t2⟩)
      ∧ ∀ nm cm nm2 cm2,
          setLayersMetadata fs t1 t2 = .ok (nm, cm) →
          setLayersMetadata fs2 t3 t4 = .ok (nm2, cm2) → nm ≠ nm2 := by
  constructor
  · simp [setLayersMetadata, h]
  · intro nm cm nm2 cm2 e1 e2
    simp only [setLayersMetadata, h, Except.ok.injEq, Prod.mk.injEq] at e1
    simp only [setLayersMetadata, h2, Except.ok.injEq, Prod.mk.injEq] at e2
    rw [← e1.1, ← e2.1]
    intro hcon
    simp only [Metadata.mk.injEq] at hcon
    exact hne (formatNatHex_injective hcon.2)

theorem C4_time_fallback_witness :
    fsNoLockEx.lockFile = none ∧ (0 : Nat) ≠ 1
      ∧ (setLayersMetadata fsNoLockEx 0 0
          = .ok (⟨ModulesMetaName, formatNatHex 0⟩, ⟨CacheMetaName, formatNatHex 0⟩)
        ∧ ∀ nm cm nm2 cm2,
            setLayersMetadata fsNoLockEx 0 0 = .ok (nm, cm) →
            setLayersMetadata fsNoLockEx 1 1 = .ok (nm2, cm2) → nm ≠ nm2) :=
  ⟨rfl, by decide, C4_time_fallback fsNoLockEx fsNoLockEx 0 0 1 1 rfl rfl (by decide)⟩

/-! ### Claim C1 -/

lemma pmStage_none (pm : PackageManager) (fs : FS) (h : fs.appNodeModules = none) :
    ∃ r, pmStage pm fs = (r, [Event.install]) := by
  unfold pmStage
  rw [h]
  cases hi : pm.install fs <;> exact ⟨_, rfl⟩

lemma pmStage_some (pm : PackageManager) (fs : FS) (d : List DirEntry)
    (h : fs.appNodeModules = some d) :
    ∃ r, pmStage pm fs = (r, [Event.rebuild]) := by
  unfold pmStage
  rw [h]
  cases hi : pm.rebuild fs <;> exact ⟨_, rfl⟩

lemma relocStage_trace (fs : FS) :
    (relocStage fs).2 = [] ∨ (relocStage fs).2 = [Event.relocate] := by
  unfold relocStage
  cases fs.appNodeModules <;> simp

lemma tipVendorTrace_cases (fs : FS) :
    tipVendorTrace fs = [] ∨ tipVendorTrace fs = [Event.tipVendor] := by
  unfold tipVendorTrace
  split <;> simp

/-- Decomposition of `contributeNodeModules` into its stages: the trace
always starts with the tip and the package-manager branch, and when the
branch succeeds it continues with the relocation trace, the
`NODE_VERBOSE` export and the unmet-dependency check. -/
lemma contributeNodeModules_decomp (pm : PackageManager) (fs : FS) :
    (∃ e tr, pmStage pm fs = (.error e, tr)
        ∧ contributeNodeModules pm fs = (.error e, tipVendorTrace fs ++ tr))
    ∨ (∃ fs1 tr, pmStage pm fs = (.ok fs1, tr)
        ∧ ((∃ e, pm.warnUnmetDependencies (relocStage fs1).1 = .error e
              ∧ contributeNodeModules pm fs
                = (.error ("failed to check unmet dependencies: " ++ e),
                    tipVendorTrace fs ++ tr ++ (relocStage fs1).2
                      ++ [Event.setVerbose, Event.warn]))
          ∨ (pm.warnUnmetDependencies (relocStage fs1).1 = .ok ()
              ∧ contributeNodeModules pm fs
                = (.ok (relocStage fs1).1,
                    tipVendorTrace fs ++ tr ++ (relocStage fs1).2
                      ++ [Event.setVerbose, Event.warn, Event.overrideNodePath,
                          Event.appendPath])))) := by
  rcases h1 : pmStage pm fs with ⟨r, tr⟩
  cases r with
  | error e =>
    left
    refine ⟨e, tr, rfl, ?_⟩
    simp [contributeNodeModules, h1]
  | ok fs1 =>
    right
    refine ⟨fs1, tr, rfl, ?_⟩
    rcases h2 : relocStage fs1 with ⟨fs2, tr2⟩
    cases h3 : pm.warnUnmetDependencies fs2 with
    | error e =>
      left
      refine ⟨e, ?_, ?_⟩
      all_goals simp [contributeNodeModules, h1, h2, h3]
    | ok u =>
      right
      cases u
      refine ⟨?_, ?_⟩
      all_goals simp [contributeNodeModules, h1, h2, h3]

/-- C1 is refuted at `fsFlatModules`: the dependency subdirectory
exists, contains no nested directory, and yet the code invokes Rebuild
(once) and never Install — the claim demands Install here. -/
theorem C1_counterexample :
    hasSubdirs fsFlatModules.appNodeModules = false
      ∧ fsFlatModules.appNodeModules.isSome = true
      ∧ (contributeNodeModules idPM fsFlatModules).2.count Event.rebuild = 1
      ∧ (contributeNodeModules idPM fsFlatModules).2.count Event.install = 0 := by
  decide

/-- C1 (amended): the vendored test is existence of the dependency
subdirectory alone — `contributeNodeModules` invokes Rebuild exactly
once and Install never when `node_modules` exists (with or without
nested directories), and Install exactly once and Rebuild never when it
does not. -/
theorem C1_amended_rebuild_iff_exists (pm : PackageManager) (fs : FS) :
    (contributeNodeModules pm fs).2.count Event.rebuild
        = (if fs.appNodeModules.isSome then 1 else 0)
      ∧ (contributeNodeModules pm fs).2.count Event.install
        = (if fs.appNodeModules.isSome then 0 else 1) := by
  have htrv : ∀ r tr, pmStage pm fs = (r, tr) →
      tr = (if fs.appNodeModules.isSome then [Event.rebuild] else [Event.install]) := by
    intro r tr hr
    cases hnm : fs.appNodeModules with
    | none =>
      obtain ⟨r2, hr2⟩ := pmStage_none pm fs hnm
      rw [hr] at hr2
      simp only [Prod.mk.injEq] at hr2
      simp [hr2.2]
    | some d =>
      obtain ⟨r2, hr2⟩ := pmStage_some pm fs d hnm
      rw [hr] at hr2
      simp only [Prod.mk.injEq] at hr2
      simp [hr2.2]
  rcases contributeNodeModules_decomp pm fs with
    ⟨e, tr, hpm, hres⟩ | ⟨fs1, tr, hpm, ⟨e, hwarn, hres⟩ | ⟨hwarn, hres⟩⟩ <;>
    rw [hres] <;>
    have htr := htrv _ _ hpm <;>
    rcases tipVendorTrace_cases fs with htip | htip <;>
    cases hnm : fs.appNodeModules <;>
    rw [hnm] at htr <;>
    simp at htr <;>
    subst htr <;>
    rw [htip] <;>
    (try (rcases relocStage_trace fs1 with hrl | hrl <;> rw [hrl]))
  all_goals simp [List.count_append, List.count_cons]

/-! ### Claim C5 -/

lemma relocStage_app_none (fs : FS) : ((relocStage fs).1).appNodeModules = none := by
  cases h : fs.appNodeModules <;> simp [relocStage, h]

lemma relocStage_layer (fs : FS) (d : List DirEntry) (h : fs.appNodeModules = some d) :
    ((relocStage fs).1).layerNodeModules = some d := by
  simp [relocStage, h]

/-- C5 is refuted when the package manager reports success but produces
no `node_modules` directory: the contribution succeeds, yet the layer
root does not contain the dependency subdirectory afterwards. -/
theorem C5_counterexample :
    (contributeNodeModules idPM fsNoLockEx).1 = .ok fsNoLockEx
      ∧ fsNoLockEx.appNodeModules = none
      ∧ fsNoLockEx.layerNodeModules = none :=
  ⟨rfl, rfl, rfl⟩

/-- C5 (amended): after every successful contribution of the
dependency-tree layer the application root no longer contains
`node_modules`, and whenever the package-manager step left a
`node_modules` directory in the application tree, the layer root
contains exactly its contents; when the step produced nothing, the
relocation is skipped without error. -/
theorem C5_amended_relocation (pm : PackageManager) (fs fs2 : FS)
    (h : (contributeNodeModules pm fs).1 = .ok fs2) :
    fs2.appNodeModules = none
      ∧ ∀ fs1 d, (pmStage pm fs).1 = .ok fs1 → fs1.appNodeModules = some d →
          fs2.layerNodeModules = some d := by
  rcases contributeNodeModules_decomp pm fs with
    ⟨e, tr, hpm, hres⟩ | ⟨fs1, tr, hpm, ⟨e, hwarn, hres⟩ | ⟨hwarn, hres⟩⟩
  · rw [hres] at h
    simp at h
  · rw [hres] at h
    simp at h
  · rw [hres] at h
    simp only [Except.ok.injEq] at h
    subst h
    refine ⟨relocStage_app_none fs1, ?_⟩
    intro fs1b d hok hd
    rw [hpm] at hok
    simp only [Except.ok.injEq] at hok
    subst hok
    exact relocStage_layer _ d hd

theorem C5_amended_relocation_witness :
    (contributeNodeModules pmVend fsNoLockEx).1 = .ok fsVendedOut
      ∧ (fsVendedOut.appNodeModules = none
        ∧ ∀ fs1 d, (pmStage pmVend fsNoLockEx).1 = .ok fs1 →
            fs1.appNodeModules = some d → fsVendedOut.layerNodeModules = some d) :=
  ⟨rfl, C5_amended_relocation pmVend fsNoLockEx fsVendedOut rfl⟩

/-! ### Layer-store and Contribute decompositions -/

lemma layerContribute_skip (m : Metadata) (fn : FS → Except String FS × List Event)
    (fs : FS) : layerContribute (some m) m fn fs = (.ok (fs, some m), []) := by
  simp [layerContribute]

lemma layerContribute_cases (persisted : Option Metadata) (meta : Metadata)
    (fn : FS → Except String FS × List Event) (fs : FS) :
    (persisted = some meta
        ∧ layerContribute persisted meta fn fs = (.ok (fs, persisted), []))
    ∨ (∃ fs2 tr, fn fs = (.ok fs2, tr)
        ∧ layerContribute persisted meta fn fs = (.ok (fs2, some meta), tr))
    ∨ (∃ e tr, fn fs = (.error e, tr)
        ∧ layerContribute persisted meta fn fs = (.error e, tr)) := by
  by_cases h : persisted = some meta
  · left
    exact ⟨h, by simp [layerContribute, h]⟩
  · right
    rcases hf : fn fs with ⟨r, tr⟩
    cases r with
    | ok fs2 =>
      left
      exact ⟨fs2, tr, rfl, by simp [layerContribute, h, hf]⟩
    | error e =>
      right
      exact ⟨e, tr, rfl, by simp [layerContribute, h, hf]⟩

lemma pmStage_snd_cases (pm : PackageManager) (fs : FS) (r : Except String FS)
    (tr : List Event) (h : pmStage pm fs = (r, tr)) :
    tr = [Event.rebuild] ∨ tr = [Event.install] := by
  cases hnm : fs.appNodeModules with
  | none =>
    obtain ⟨r2, hr2⟩ := pmStage_none pm fs hnm
    rw [h] at hr2
    simp only [Prod.mk.injEq] at hr2
    right
    exact hr2.2
  | some d =>
    obtain ⟨r2, hr2⟩ := pmStage_some pm fs d hnm
    rw [h] at hr2
    simp only [Prod.mk.injEq] at hr2
    left
    exact hr2.2

lemma contributeNodeModules_mem (pm : PackageManager) (fs : FS) :
    ∀ e ∈ (contributeNodeModules pm fs).2,
      e = Event.install ∨ e = Event.rebuild ∨ e = Event.tipVendor ∨ e = Event.relocate
        ∨ e = Event.setVerbose ∨ e = Event.warn ∨ e = Event.overrideNodePath
        ∨ e = Event.appendPath := by
  intro e he
  rcases contributeNodeModules_decomp pm fs with
    ⟨e2, tr, hpm, hres⟩ | ⟨fs1, tr, hpm, ⟨e2, hwarn, hres⟩ | ⟨hwarn, hres⟩⟩ <;>
    rw [hres] at he <;>
    rcases pmStage_snd_cases pm fs _ _ hpm with htr | htr <;>
    subst htr <;>
    rcases tipVendorTrace_cases fs with htip | htip <;>
    rw [htip] at he <;>
    (try (rcases relocStage_trace fs1 with hrl | hrl <;> rw [hrl] at he)) <;>
    simp at he <;>
    tauto

lemma contributeNPMCache_mem (fs : FS) :
    ∀ e ∈ (contributeNPMCache fs).2,
      e = Event.mkdirCacheLayer ∨ e = Event.relocateCache := by
  intro e he
  cases hc : fs.appNpmCache <;> simp [contributeNPMCache, hc] at he <;> tauto

/-- Every possible trace of `Contribute`: it opens with the
`node_modules` layer contribution carrying `c.flags`, optionally the
node-modules contribution events, then (unless that failed) the cache
layer contribution carrying exactly the `Cache` flag, optionally the
cache contribution events, then (unless that failed) the process
registration. -/
lemma Contribute_shape (c : Contributor) (pm : PackageManager) (s : BuildState) :
    ∃ trA rest,
      (c.Contribute pm s).2 = Event.nodeLayer c.flags :: (trA ++ rest)
        ∧ (trA = [] ∨ trA = (contributeNodeModules pm s.fs).2)
        ∧ (rest = []
          ∨ ∃ trB tail, rest = Event.cacheLayer [Flag.cache] :: (trB ++ tail)
              ∧ (trB = [] ∨ ∃ fsMid, trB = (contributeNPMCache fsMid).2)
              ∧ (tail = []
                ∨ tail = [Event.writeProcesses [⟨"web", "npm start", false⟩]])) := by
  rcases layerContribute_cases s.nodeModulesLayerMeta c.NodeModulesMetadata
      (contributeNodeModules pm) s.fs with ⟨hp, heq⟩ | ⟨fs2, trA, hfn, heq⟩ | ⟨e, trA, hfn, heq⟩
  · rcases layerContribute_cases s.npmCacheLayerMeta c.NPMCacheMetadata
        contributeNPMCache s.fs with ⟨hp2, heq2⟩ | ⟨fsB, trB, hfn2, heq2⟩ | ⟨e2, trB, hfn2, heq2⟩
    · refine ⟨[], Event.cacheLayer [Flag.cache] :: ([] ++
        [Event.writeProcesses [⟨"web", "npm start", false⟩]]), ?_, Or.inl rfl, ?_⟩
      · simp [Contributor.Contribute, heq, heq2]
      · exact Or.inr ⟨[], _, rfl, Or.inl rfl, Or.inr rfl⟩
    · refine ⟨[], Event.cacheLayer [Flag.cache] :: (trB ++
        [Event.writeProcesses [⟨"web", "npm start", false⟩]]), ?_, Or.inl rfl, ?_⟩
      · simp [Contributor.Contribute, heq, heq2]
      · exact Or.inr ⟨trB, _, rfl, Or.inr ⟨s.fs, by rw [hfn2]⟩, Or.inr rfl⟩
    · refine ⟨[], Event.cacheLayer [Flag.cache] :: (trB ++ []), ?_, Or.inl rfl, ?_⟩
      · simp [Contributor.Contribute, heq, heq2]
      · exact Or.inr ⟨trB, [], rfl, Or.inr ⟨s.fs, by rw [hfn2]⟩, Or.inl rfl⟩
  · rcases layerContribute_cases s.npmCacheLayerMeta c.NPMCacheMetadata
        contributeNPMCache fs2 with ⟨hp2, heq2⟩ | ⟨fsB, trB, hfn2, heq2⟩ | ⟨e2, trB, hfn2, heq2⟩
    · refine ⟨trA, Event.cacheLayer [Flag.cache] :: ([] ++
        [Event.writeProcesses [⟨"web", "npm start", false⟩]]), ?_, Or.inr (by rw [hfn]), ?_⟩
      · simp [Contributor.Contribute, heq, heq2]
      · exact Or.inr ⟨[], _, rfl, Or.inl rfl, Or.inr rfl⟩
    · refine ⟨trA, Event.cacheLayer [Flag.cache] :: (trB ++
        [Event.writeProcesses [⟨"web", "npm start", false⟩]]), ?_, Or.inr (by rw [hfn]), ?_⟩
      · simp [Contributor.Contribute, heq, heq2]
      · exact Or.inr ⟨trB, _, rfl, Or.inr ⟨fs2, by rw [hfn2]⟩, Or.inr rfl⟩
    · refine ⟨trA, Event.cacheLayer [Flag.cache] :: (trB ++ []), ?_, Or.inr (by rw [hfn]), ?_⟩
      · simp [Contributor.Contribute, heq, heq2]
      · exact Or.inr ⟨trB, [], rfl, Or.inr ⟨fs2, by rw [hfn2]⟩, Or.inl rfl⟩
  · refine ⟨trA, [], ?_, Or.inr (by rw [hfn]), Or.inl rfl⟩
    simp [Contributor.Contribute, heq]

/-- On success, the trace of `Contribute` is fully determined up to the
two optional contribution sub-traces, and both layer metadata records
are persisted. -/
lemma Contribute_success (c : Contributor) (pm : PackageManager) (s s2 : BuildState)
    (tr : List Event) (h : c.Contribute pm s = (.ok s2, tr)) :
    s2.nodeModulesLayerMeta = some c.NodeModulesMetadata
      ∧ s2.npmCacheLayerMeta = some c.NPMCacheMetadata
      ∧ ∃ trA trB,
          tr = Event.nodeLayer c.flags :: (trA ++ Event.cacheLayer [Flag.cache] ::
                (trB ++ [Event.writeProcesses [⟨"web", "npm start", false⟩]]))
            ∧ (trA = [] ∨ trA = (contributeNodeModules pm s.fs).2)
            ∧ (trB = [] ∨ ∃ fsMid, trB = (contributeNPMCache fsMid).2) := by
  rcases hL1 : layerContribute s.nodeModulesLayerMeta c.NodeModulesMetadata
      (contributeNodeModules pm) s.fs with ⟨r1, tr1⟩
  cases r1 with
  | error e =>
    have hC : c.Contribute pm s = (.error e, Event.nodeLayer c.flags :: tr1) := by
      simp [Contributor.Contribute, hL1]
    rw [hC] at h
    simp at h
  | ok p1 =>
    obtain ⟨fs1, m1⟩ := p1
    have hm1 : m1 = some c.NodeModulesMetadata ∧
        (tr1 = [] ∨ tr1 = (contributeNodeModules pm s.fs).2) := by
      rcases layerContribute_cases s.nodeModulesLayerMeta c.NodeModulesMetadata
          (contributeNodeModules pm) s.fs with ⟨hp, heq⟩ | ⟨fsX, trX, hfn, heq⟩ |
            ⟨eX, trX, hfn, heq⟩ <;> rw [hL1] at heq <;>
        simp only [Prod.mk.injEq, Except.ok.injEq, Except.error.injEq] at heq
      · exact ⟨heq.1.2.trans hp, Or.inl heq.2⟩
      · exact ⟨heq.1.2, Or.inr (by rw [hfn]; exact heq.2)⟩
      · exact absurd heq (by simp)
    rcases hL2 : layerContribute s.npmCacheLayerMeta c.NPMCacheMetadata
        contributeNPMCache fs1 with ⟨r2, tr2⟩
    cases r2 with
    | error e2 =>
      have hC : c.Contribute pm s = (.error e2,
          Event.nodeLayer c.flags :: tr1 ++ Event.cacheLayer [Flag.cache] :: tr2) := by
        simp [Contributor.Contribute, hL1, hL2]
      rw [hC] at h
      simp at h
    | ok p2 =>
      obtain ⟨fs2, m2⟩ := p2
      have hm2 : m2 = some c.NPMCacheMetadata ∧
          (tr2 = [] ∨ ∃ fsMid, tr2 = (contributeNPMCache fsMid).2) := by
        rcases layerContribute_cases s.npmCacheLayerMeta c.NPMCacheMetadata
            contributeNPMCache fs1 with ⟨hp, heq⟩ | ⟨fsX, trX, hfn, heq⟩ |
              ⟨eX, trX, hfn, heq⟩ <;> rw [hL2] at heq <;>
          simp only [Prod.mk.injEq, Except.ok.injEq, Except.error.injEq] at heq
        · exact ⟨heq.1.2.trans hp, Or.inl heq.2⟩
        · exact ⟨heq.1.2, Or.inr ⟨fs1, by rw [hfn]; exact heq.2⟩⟩
        · exact absurd heq (by simp)
      have hC : c.Contribute pm s = (.ok ⟨fs2, m1, m2⟩,
          Event.nodeLayer c.flags :: tr1 ++ Event.cacheLayer [Flag.cache] :: tr2 ++
            [Event.writeProcesses [⟨"web", "npm start", false⟩]]) := by
        simp [Contributor.Contribute, hL1, hL2]
      rw [hC] at h
      simp only [Prod.mk.injEq, Except.ok.injEq] at h
      obtain ⟨hs, htr⟩ := h
      subst hs
      exact ⟨by simp [hm1.1], by simp [hm2.1], tr1, tr2,
        by rw [← htr]; simp [List.cons_append, List.append_assoc], hm1.2, hm2.2⟩

/-! ### Claim C7 -/

lemma filter_isWriteProcs_nodeModules (pm : PackageManager) (fs : FS) :
    (contributeNodeModules pm fs).2.filter isWriteProcs = [] := by
  rw [List.filter_eq_nil]
  intro e he
  rcases contributeNodeModules_mem pm fs e he with
    rfl | rfl | rfl | rfl | rfl | rfl | rfl | rfl <;> simp [isWriteProcs]

lemma filter_isWriteProcs_npmCache (fs : FS) :
    (contributeNPMCache fs).2.filter isWriteProcs = [] := by
  rw [List.filter_eq_nil]
  intro e he
  rcases contributeNPMCache_mem fs e he with rfl | rfl <;> simp [isWriteProcs]

/-- C7: every successful `Contribute` run registers exactly one runtime
process entry, a single process named `web` running `npm start`,
whichever of the reuse / install / rebuild branches the two layers
took. -/
theorem C7_web_process_registered (c : Contributor) (pm : PackageManager)
    (s s2 : BuildState) (tr : List Event) (h : c.Contribute pm s = (.ok s2, tr)) :
    tr.filter isWriteProcs = [Event.writeProcesses [⟨"web", "npm start", false⟩]] := by
  obtain ⟨_, _, trA, trB, htr, hA, hB⟩ := Contribute_success c pm s s2 tr h
  subst htr
  have hA0 : trA.filter isWriteProcs = [] := by
    rcases hA with rfl | rfl
    · rfl
    · exact filter_isWriteProcs_nodeModules pm s.fs
  have hB0 : trB.filter isWriteProcs = [] := by
    rcases hB with rfl | ⟨fsMid, rfl⟩
    · rfl
    · exact filter_isWriteProcs_npmCache fsMid
  simp [List.filter_append, List.filter_cons, hA0, hB0, isWriteProcs]

theorem C7_web_process_registered_witness :
    Contributor.Contribute c7W idPM s7Start = (.ok s7After, tr7)
      ∧ tr7.filter isWriteProcs = [Event.writeProcesses [⟨"web", "npm start", false⟩]] :=
  ⟨rfl, C7_web_process_registered c7W idPM s7Start s7After tr7 rfl⟩

/-! ### Claim C8 -/

/-- C8: `Contribute` contributes the dependency-tree layer with the
`Cache` flag always present, the `Build` flag exactly when the
requirement's build boolean is set, and the `Launch` flag exactly when
its launch boolean is set (in that order), while any cache-layer
contribution carries exactly the `Cache` flag. -/
theorem C8_layer_flags (c : Contributor) (pm : PackageManager) (s : BuildState) :
    Flag.cache ∈ c.flags
      ∧ (Flag.build ∈ c.flags ↔ c.buildContribution = true)
      ∧ (Flag.launch ∈ c.flags ↔ c.launchContribution = true)
      ∧ (∃ rest, (c.Contribute pm s).2 = Event.nodeLayer c.flags :: rest)
      ∧ (∀ fl, Event.cacheLayer fl ∈ (c.Contribute pm s).2 → fl = [Flag.cache]) := by
  obtain ⟨trA, rest, hshape, hA, hrest⟩ := Contribute_shape c pm s
  refine ⟨?_, ?_, ?_, ⟨trA ++ rest, hshape⟩, ?_⟩
  · simp [Contributor.flags]
  · cases hb : c.buildContribution <;> cases hl : c.launchContribution <;>
      simp [Contributor.flags, hb, hl]
  · cases hb : c.buildContribution <;> cases hl : c.launchContribution <;>
      simp [Contributor.flags, hb, hl]
  · intro fl hmem
    rw [hshape] at hmem
    simp only [List.mem_cons, List.mem_append] at hmem
    rcases hmem with hmem | hmem | hmem
    · exact absurd hmem (by simp)
    · have hno : ∀ e ∈ trA, e ≠ Event.cacheLayer fl := by
        rcases hA with rfl | rfl
        · intro e he
          simp at he
        · intro e he
          rcases contributeNodeModules_mem pm s.fs e he with
            rfl | rfl | rfl | rfl | rfl | rfl | rfl | rfl <;> simp
      exact absurd rfl (hno _ hmem)
    · rcases hrest with rfl | ⟨trB, tail, rfl, hB, htail⟩
      · simp at hmem
      · simp only [List.mem_cons, List.mem_append] at hmem
        rcases hmem with hmem | hmem | hmem
        · simp only [Event.cacheLayer.injEq] at hmem
          exact hmem
        · have hno : ∀ e ∈ trB, e ≠ Event.cacheLayer fl := by
            rcases hB with rfl | ⟨fsMid, rfl⟩
            · intro e he
              simp at he
            · intro e he
              rcases contributeNPMCache_mem fsMid e he with rfl | rfl <;> simp
          exact absurd rfl (hno _ hmem)
        · rcases htail with rfl | rfl
          · simp at hmem
          · simp at hmem

/-! ### Claim C9 -/

/-- C9: once the package-manager branch has succeeded, the
unmet-dependency check runs against the application root directly after
the relocation step and the `NODE_VERBOSE` export, and a failure of the
check itself is propagated as a fatal contribution error (wrapped with
the `failed to check unmet dependencies` context). -/
theorem C9_warn_after_relocation (pm : PackageManager) (fs fs1 : FS)
    (tr1 : List Event) (h : pmStage pm fs = (.ok fs1, tr1)) :
    (∃ rest, (contributeNodeModules pm fs).2
        = tipVendorTrace fs ++ tr1 ++ (relocStage fs1).2
            ++ ([Event.setVerbose, Event.warn] ++ rest))
      ∧ ∀ e, pm.warnUnmetDependencies (relocStage fs1).1 = .error e →
          (contributeNodeModules pm fs).1
            = .error ("failed to check unmet dependencies: " ++ e) := by
  rcases contributeNodeModules_decomp pm fs with
    ⟨e2, tr, hpm, hres⟩ | ⟨fs1x, tr, hpm, hcase⟩
  · rw [h] at hpm
    exact absurd hpm (by simp)
  · rw [h] at hpm
    simp only [Prod.mk.injEq, Except.ok.injEq] at hpm
    obtain ⟨hfs, htr⟩ := hpm
    subst hfs
    subst htr
    rcases hcase with ⟨e, hwarn, hres⟩ | ⟨hwarn, hres⟩
    · constructor
      · exact ⟨[], by rw [hres]; simp⟩
      · intro e3 hw3
        rw [hwarn] at hw3
        simp only [Except.error.injEq] at hw3
        subst hw3
        rw [hres]
    · constructor
      · exact ⟨[Event.overrideNodePath, Event.appendPath], by rw [hres]; simp⟩
      · intro e3 hw3
        rw [hwarn] at hw3
        exact absurd hw3 (by simp)

theorem C9_warn_after_relocation_witness :
    pmStage pmWarnFail fsNoLockEx = (.ok fsNoLockEx, [Event.install])
      ∧ ((∃ rest, (contributeNodeModules pmWarnFail fsNoLockEx).2
            = tipVendorTrace fsNoLockEx ++ [Event.install]
                ++ (relocStage fsNoLockEx).2 ++ ([Event.setVerbose, Event.warn] ++ rest))
        ∧ ∀ e, pmWarnFail.warnUnmetDependencies (relocStage fsNoLockEx).1 = .error e →
            (contributeNodeModules pmWarnFail fsNoLockEx).1
              = .error ("failed to check unmet dependencies: " ++ e)) :=
  ⟨rfl, C9_warn_after_relocation pmWarnFail fsNoLockEx fsNoLockEx [Event.install] rfl⟩

/-! ### Claim C10 -/

/-- C10: when the requirement for the dependency key is present,
`NewContributor` succeeds; if the plan metadata lacks the `build`
(resp. `launch`) entry or carries it with a non-boolean value, the Go
two-value type assertion yields `false`, so the corresponding
contribution boolean is `false` and the `Build` (resp. `Launch`) flag
is omitted from the dependency layer's flags. -/
theorem C10_plan_bool_defaults (p : Plan) (fs : FS) (t1 t2 : Nat) :
    (∃ c, NewContributor (some p) fs t1 t2 = .ok (some c))
      ∧ ((∀ b : Bool, p.Metadata.lookup "build" ≠ some (PlanVal.bool b)) →
          ∀ c, NewContributor (some p) fs t1 t2 = .ok (some c) →
            c.buildContribution = false ∧ Flag.build ∉ c.flags)
      ∧ ((∀ b : Bool, p.Metadata.lookup "launch" ≠ some (PlanVal.bool b)) →
          ∀ c, NewContributor (some p) fs t1 t2 = .ok (some c) →
            c.launchContribution = false ∧ Flag.launch ∉ c.flags) := by
  have hsm : ∃ nm cm, setLayersMetadata fs t1 t2 = .ok (nm, cm) := by
    cases hl : fs.lockFile with
    | none =>
      exact ⟨⟨ModulesMetaName, formatNatHex t1⟩, ⟨CacheMetaName, formatNatHex t2⟩,
        by simp [setLayersMetadata, hl]⟩
    | some out =>
      exact ⟨⟨ModulesMetaName, sha256hex out⟩, ⟨CacheMetaName, sha256hex out⟩,
        by simp [setLayersMetadata, hl]⟩
  obtain ⟨nm, cm, hsm⟩ := hsm
  have hnc : NewContributor (some p) fs t1 t2
      = .ok (some ⟨nm, cm, planBool p.Metadata "build", planBool p.Metadata "launch"⟩) := by
    simp [NewContributor, hsm]
  refine ⟨⟨_, hnc⟩, ?_, ?_⟩
  · intro hb c hc
    rw [hnc] at hc
    simp only [Except.ok.injEq, Option.some.injEq] at hc
    subst hc
    have hfalse : planBool p.Metadata "build" = false := by
      unfold planBool
      cases hlk : p.Metadata.lookup "build" with
      | none => rfl
      | some v =>
        cases v with
        | bool b => exact absurd hlk (hb b)
        | str s2 => rfl
        | num n => rfl
    refine ⟨hfalse, ?_⟩
    cases hlc : planBool p.Metadata "launch" <;>
      simp [Contributor.flags, hfalse, hlc]
  · intro hl c hc
    rw [hnc] at hc
    simp only [Except.ok.injEq, Option.some.injEq] at hc
    subst hc
    have hfalse : planBool p.Metadata "launch" = false := by
      unfold planBool
      cases hlk : p.Metadata.lookup "launch" with
      | none => rfl
      | some v =>
        cases v with
        | bool b => exact absurd hlk (hl b)
        | str s2 => rfl
        | num n => rfl
    refine ⟨hfalse, ?_⟩
    cases hlb : planBool p.Metadata "build" <;>
      simp [Contributor.flags, hfalse, hlb]

theorem C10_plan_bool_defaults_witness :
    (∀ b : Bool, planNoBools.Metadata.lookup "build" ≠ some (PlanVal.bool b))
      ∧ (∀ b : Bool, planNoBools.Metadata.lookup "launch" ≠ some (PlanVal.bool b))
      ∧ ((∃ c, NewContributor (some planNoBools) fsNoLockEx 0 0 = .ok (some c))
        ∧ ((∀ b : Bool, planNoBools.Metadata.lookup "build" ≠ some (PlanVal.bool b)) →
            ∀ c, NewContributor (some planNoBools) fsNoLockEx 0 0 = .ok (some c) →
              c.buildContribution = false ∧ Flag.build ∉ c.flags)
        ∧ ((∀ b : Bool, planNoBools.Metadata.lookup "launch" ≠ some (PlanVal.bool b)) →
            ∀ c, NewContributor (some planNoBools) fsNoLockEx 0 0 = .ok (some c) →
              c.launchContribution = false ∧ Flag.launch ∉ c.flags)) :=
  ⟨by decide, by decide, C10_plan_bool_defaults planNoBools fsNoLockEx 0 0⟩

/-! ### Claim C6 -/

/-- C6: across two sequential builds over the same application with the
lock file present and unchanged, the second build succeeds with its
state unchanged, and its trace consists only of the two layer
contributions' flag bookkeeping and the process registration — no
Install, no Rebuild, and no filesystem mutation, whatever the second
build's package manager would do. -/
theorem C6_second_build_reuses (pm pm2 : PackageManager) (p : Plan)
    (t1 t2 t3 t4 : Nat) (s s1 : BuildState) (tr1 : List Event) (L : List Nat)
    (hlock : s.fs.lockFile = some L)
    (h1 : runBuild pm (some p) t1 t2 s = (.ok s1, tr1))
    (hunch : s1.fs.lockFile = some L) :
    ∃ fl, runBuild pm2 (some p) t3 t4 s1
        = (.ok s1,
            [Event.nodeLayer fl, Event.cacheLayer [Flag.cache],
              Event.writeProcesses [⟨"web", "npm start", false⟩]])
      ∧ ([Event.nodeLayer fl, Event.cacheLayer [Flag.cache],
            Event.writeProcesses [⟨"web", "npm start", false⟩]].count Event.install = 0
        ∧ [Event.nodeLayer fl, Event.cacheLayer [Flag.cache],
            Event.writeProcesses [⟨"web", "npm start", false⟩]].count Event.rebuild = 0) := by
  have hnc1 : NewContributor (some p) s.fs t1 t2
      = .ok (some ⟨⟨ModulesMetaName, sha256hex L⟩, ⟨CacheMetaName, sha256hex L⟩,
          planBool p.Metadata "build", planBool p.Metadata "launch"⟩) := by
    simp [NewContributor, setLayersMetadata, hlock]
  simp only [runBuild, hnc1] at h1
  obtain ⟨hm1, hm2, -⟩ := Contribute_success _ pm s s1 tr1 h1
  simp only at hm1 hm2
  have hnc2 : NewContributor (some p) s1.fs t3 t4
      = .ok (some ⟨⟨ModulesMetaName, sha256hex L⟩, ⟨CacheMetaName, sha256hex L⟩,
          planBool p.Metadata "build", planBool p.Metadata "launch"⟩) := by
    simp [NewContributor, setLayersMetadata, hunch]
  refine ⟨Contributor.flags ⟨⟨ModulesMetaName, sha256hex L⟩, ⟨CacheMetaName, sha256hex L⟩,
      planBool p.Metadata "build", planBool p.Metadata "launch"⟩,
    ?_, by simp [List.count_cons], by simp [List.count_cons]⟩
  simp only [runBuild, hnc2, Contributor.Contribute, hm1, hm2, layerContribute_skip]
  rw [← hm1, ← hm2]
  simp

theorem C6_second_build_reuses_witness :
    s6Start.fs.lockFile = some jsonLockBytes
      ∧ runBuild pmVend (some planBoth) 0 0 s6Start = (.ok s6After, tr6)
      ∧ s6After.fs.lockFile = some jsonLockBytes
      ∧ ∃ fl, runBuild pmVend (some planBoth) 1 2 s6After
            = (.ok s6After,
                [Event.nodeLayer fl, Event.cacheLayer [Flag.cache],
                  Event.writeProcesses [⟨"web", "npm start", false⟩]])
          ∧ ([Event.nodeLayer fl, Event.cacheLayer [Flag.cache],
                Event.writeProcesses [⟨"web", "npm start", false⟩]].count Event.install = 0
            ∧ [Event.nodeLayer fl, Event.cacheLayer [Flag.cache],
                Event.writeProcesses [⟨"web", "npm start", false⟩]].count Event.rebuild = 0) :=
  ⟨rfl, rfl, rfl,
    C6_second_build_reuses pmVend pmVend planBoth 0 0 1 2 s6Start s6After tr6
      jsonLockBytes rfl rfl rfl⟩

end YarnCNB
